import Mathlib

/-!
Verification development for the arvore e-reader automation server.

The TypeScript sources are shallowly embedded as Lean definitions:

* strings are modelled as lists of Unicode code points (`List ℕ`), so that
  the ASCII-level operations of the source (`trim`, `toLowerCase`,
  `replace(/[a-z]/g,"")`, digit filtering, regex anchors) become explicit
  list functions;
* JavaScript numbers that only ever hold integral millisecond timestamps are
  modelled as `Int`, and the fractional second / percentage arithmetic of the
  source as `ℚ`;
* the DOM is abstracted as inputs: an element query returns the data the
  source immediately extracts from the element (button present/disabled,
  probed total-page text, card title/cover/slug), supplied per loop
  iteration through an environment record;
* the event-emitter telemetry is modelled as explicit lists of events.
-/

/-! ### Character-code helpers (code points, ASCII semantics) -/

/-- Whitespace as removed by a JavaScript string trim, restricted to the
ASCII whitespace characters (space, tab, CR, LF). -/
def isWsN (c : ℕ) : Bool := decide (c = 32 ∨ c = 9 ∨ c = 13 ∨ c = 10)

/-- ASCII digit 0-9, the character class of the regexes in the source. -/
def isDigitN (c : ℕ) : Bool := decide (48 ≤ c ∧ c ≤ 57)

/-- ASCII lowercase letter a-z, the character class `[a-z]`. -/
def isLowerN (c : ℕ) : Bool := decide (97 ≤ c ∧ c ≤ 122)

/-- ASCII uppercase letter A-Z. -/
def isUpperN (c : ℕ) : Bool := decide (65 ≤ c ∧ c ≤ 90)

/-- The character class `[a-zA-Z]` of the identifier regex. -/
def isAlphaN (c : ℕ) : Bool := isLowerN c || isUpperN c

/-- Letters and digits. -/
def isAlnumN (c : ℕ) : Bool := isDigitN c || isAlphaN c

/-- ASCII lowering, as performed by `toLowerCase` on ASCII input. -/
def toLowerN (c : ℕ) : ℕ := if isUpperN c then c + 32 else c

/-- ASCII raising, as performed by `toUpperCase` on ASCII input. -/
def toUpperN (c : ℕ) : ℕ := if isLowerN c then c - 32 else c

/-- Code points of a Lean string literal, used to write concrete inputs. -/
def strN (s : String) : List ℕ := s.toList.map Char.toNat

/-- JavaScript `String.prototype.trim` (ASCII whitespace model). -/
def trimN (l : List ℕ) : List ℕ :=
  ((l.dropWhile isWsN).reverse.dropWhile isWsN).reverse

/-- The digits of a string, in order (`replace(/\D/g, "")`). -/
def digitsOnlyN (l : List ℕ) : List ℕ := l.filter isDigitN

/-! ### parseRA (src/server/automation.ts lines 163-175, identically
src/unnamed/part_000 lines 8-16) -/

/-- Result of `parseRA`: identifier body, check digit, region code. -/
structure RAParts where
  ra : List ℕ
  digito : List ℕ
  uf : List ℕ
  deriving DecidableEq, Repr

/-- The region-code extraction `raClean.match(/([a-z]{2})$/)`: the last two
characters when both are lowercase letters, uppercased; `"SP"` otherwise. -/
def ufOf (raClean : List ℕ) : List ℕ :=
  match raClean.reverse with
  | c2 :: c1 :: _ =>
      if isLowerN c1 && isLowerN c2 then [toUpperN c1, toUpperN c2] else strN "SP"
  | _ => strN "SP"

/-- `raClean.replace(/[a-z]/g, "")`: drop the lowercase letters, keep
everything else (digits, but also punctuation, if any). -/
def numbersOnlyOf (raClean : List ℕ) : List ℕ := raClean.filter (fun c => !isLowerN c)

/-- `parseRA` from the source: trim and lowercase the raw identifier, read the
trailing two-letter region (default SP), strip letters, then split off the
last remaining character as the check digit (`slice(0,-1)` / `slice(-1)`). -/
def parseRA (raFull : List ℕ) : RAParts :=
  let raClean := (trimN raFull).map toLowerN
  { ra := (numbersOnlyOf raClean).dropLast
    digito := (numbersOnlyOf raClean).getLast?.toList
    uf := ufOf raClean }

/-! ### automationConfigSchema (src/shared/schema.ts lines 126-132) -/

/-- The anchored regex `^\d+[a-zA-Z]{2}$` of the identifier field: at least
one digit followed by exactly two letters. -/
def raFormatOk (ra : List ℕ) : Bool :=
  match ra.reverse with
  | c2 :: c1 :: rest => isAlphaN c1 && isAlphaN c2 && !rest.isEmpty && rest.all isDigitN
  | _ => false

/-- A successfully validated automation configuration. -/
structure AutomationConfig where
  ra : List ℕ
  password : List ℕ
  bookSlug : List ℕ
  interval : ℚ
  bookQueueId : Option (List ℕ)
  deriving DecidableEq, Repr

/-- The raw `start` payload before validation; `interval` is optional because
the zod schema has `.default(60)`. -/
structure RawConfig where
  ra : List ℕ
  password : List ℕ
  bookSlug : List ℕ
  interval : Option ℚ
  bookQueueId : Option (List ℕ)
  deriving DecidableEq, Repr

/-- `automationConfigSchema.safeParse`: identifier must be nonempty and match
the regex, password and slug nonempty, and `interval` — when present — must
satisfy `min(60).max(300)`; zod rejects (returns failure) on violation, it
does not clamp.  A missing interval defaults to 60. -/
def parseAutomationConfig (i : RawConfig) : Option AutomationConfig :=
  if raFormatOk i.ra && !i.password.isEmpty && !i.bookSlug.isEmpty then
    match i.interval with
    | none => some ⟨i.ra, i.password, i.bookSlug, 60, i.bookQueueId⟩
    | some v =>
        if 60 ≤ v ∧ v ≤ 300 then some ⟨i.ra, i.password, i.bookSlug, v, i.bookQueueId⟩
        else none
  else none

/-! ### Elapsed-time accounting (src/server/automation.ts lines 79-83 and
778-794) -/

/-- The timing-relevant fields of `AutomationService`. -/
structure TimingState where
  startTime : Int
  pausedTime : Int
  lastPauseStart : Int
  isPaused : Bool
  deriving DecidableEq, Repr

/-- The timing fields as reset by `start` (lines 87-92): clock reads are in
integral milliseconds. -/
def startTiming (now : Int) : TimingState :=
  { startTime := now, pausedTime := 0, lastPauseStart := 0, isPaused := false }

/-- `pause()` (lines 778-785): no-op when already paused, else records the
pause start.  (The accompanying `paused` state/log emissions are modelled
with the engine events further below.) -/
def pauseRun (s : TimingState) (now : Int) : TimingState :=
  if s.isPaused then s
  else { s with isPaused := true, lastPauseStart := now }

/-- `resume()` (lines 787-794): no-op when not paused, else adds the pause
duration to the accumulated paused time. -/
def resumeRun (s : TimingState) (now : Int) : TimingState :=
  if s.isPaused then
    { s with isPaused := false, pausedTime := s.pausedTime + (now - s.lastPauseStart) }
  else s

/-- `getElapsedTime()` (lines 79-83): `(now - startTime - pausedTime) / 1000`
seconds, or 0 while `startTime` is still falsy. -/
def getElapsedTime (s : TimingState) (now : Int) : ℚ :=
  if s.startTime = 0 then 0
  else ((now - s.startTime - s.pausedTime : Int) : ℚ) / 1000

/-! ### Progress snapshots (src/server/automation.ts lines 38-60) -/

/-- The `ProgressData` payload of a `progress` event. -/
structure ProgressData where
  currentPage : ℕ
  totalPages : Option ℕ
  percentage : ℚ
  elapsedTime : ℚ
  estimatedTimeRemaining : Option ℚ
  deriving DecidableEq, Repr

/-- JavaScript truthiness of the nullable number `totalPages`: `null` and `0`
are both falsy. -/
def jsTruthyNat : Option ℕ → Bool
  | none => false
  | some n => n != 0

/-- `emitProgress` (lines 38-60) as a function of the run counters: percentage
is `currentPage/totalPages*100` when a (nonzero) total is known and the
constant 0 otherwise; the ETA is `(elapsed/currentPage)*(totalPages-currentPage)`
guarded by `totalPages && currentPage > 0 && percentage > 0`. -/
def mkProgress (currentPage : ℕ) (totalPages : Option ℕ) (elapsedTime : ℚ) : ProgressData :=
  let percentage : ℚ :=
    if jsTruthyNat totalPages then ((currentPage : ℚ) / ((totalPages.getD 0 : ℕ) : ℚ)) * 100
    else 0
  let estimated : Option ℚ :=
    if jsTruthyNat totalPages && currentPage != 0 && decide (0 < percentage) then
      some ((elapsedTime / (currentPage : ℚ)) * (((totalPages.getD 0 : ℕ) : ℚ) - (currentPage : ℚ)))
    else none
  { currentPage := currentPage
    totalPages := totalPages
    percentage := percentage
    elapsedTime := elapsedTime
    estimatedTimeRemaining := estimated }

/-! ### Engine events and the reading loop
(src/server/automation.ts lines 662-776) -/

/-- The automation session states of src/shared/schema.ts line 118. -/
inductive AutomationState
  | idle | connecting | loggingIn | loadingBook | reading | paused | completed | error
  deriving DecidableEq, Repr

/-- Log severities of src/shared/schema.ts line 122. -/
inductive LogType
  | info | success | warning | error
  deriving DecidableEq, Repr

/-- The events an `AutomationService` emits (src/server/automation.ts lines
5-11).  The `completed` payload carries `bookQueueId`, `pagesRead`,
`totalPages` and `timeSpent`. -/
inductive EngineEvent
  | stateChange (s : AutomationState)
  | progress (p : ProgressData)
  | log (t : LogType) (message : String)
  | errorEvent (message : String)
  | completedEvent (bookQueueId : Option String) (pagesRead : ℕ) (totalPages : ℕ)
      (timeSpent : ℚ)
  deriving DecidableEq, Repr

/-- The run-scoped counters of `AutomationService` used by the reading loop. -/
structure ReadState where
  currentPage : ℕ
  totalPages : Option ℕ
  startTime : Int
  pausedTime : Int
  bookQueueId : Option String
  deriving DecidableEq, Repr

/-- `getElapsedTime` as invoked with the loop counters. -/
def elapsedAt (s : ReadState) (now : Int) : ℚ :=
  getElapsedTime { startTime := s.startTime, pausedTime := s.pausedTime,
                   lastPauseStart := 0, isPaused := false } now

/-- JavaScript truthiness of the nullable string `bookQueueId`
(`this.bookQueueId || undefined` in `emitCompleted`). -/
def jsTruthyStr : Option String → Option String
  | none => none
  | some s => if s = "" then none else some s

/-- `this.totalPages || this.currentPage` in `emitCompleted` (lines 70-77):
the detected total, falling back to the page counter when the total is null
(or the falsy 0). -/
def completedTotal (totalPages : Option ℕ) (currentPage : ℕ) : ℕ :=
  if jsTruthyNat totalPages then totalPages.getD 0 else currentPage

/-- `emitCompleted()` (lines 70-77). -/
def emitCompletedEvent (s : ReadState) (now : Int) : EngineEvent :=
  .completedEvent (jsTruthyStr s.bookQueueId) s.currentPage
    (completedTotal s.totalPages s.currentPage) (elapsedAt s now)

/-- Result of querying a next-page control on the live page. -/
inductive ButtonRes
  | absent
  | present (disabled : Bool)
  deriving DecidableEq, Repr

/-- The DOM observations of one iteration of the reading loop:
`stopSignal` is the stop flag as observed at the top of the iteration (or on
leaving the pause wait), `primary` the query for
`[data-testid='next-page-button']`, `alt` the first match of the alternative
selectors (with its disabled flag, which the source never reads), `probe` the
result of the opportunistic `getTotalPages()` re-probe, and `now` the clock. -/
structure IterEnv where
  stopSignal : Bool
  primary : ButtonRes
  alt : Option Bool
  probe : Option ℕ
  now : Int
  deriving DecidableEq, Repr

/-- How the reading loop ended. -/
inductive RunEnd
  | completedEnd
  | stoppedEnd
  deriving DecidableEq, Repr

/-- The end-of-book emission sequence (lines 712-717 and 725-730): success
log, one `completed` event, the `completed` state. -/
def endOfBookEvents (s : ReadState) (now : Int) : List EngineEvent :=
  [.log .success "Fim do livro alcançado!", emitCompletedEvent s now,
   .stateChange .completed]

/-- The page-turn branch of the loop body (lines 741-760): increment
`currentPage`, emit progress, re-probe the total when still unknown (emitting
a log and a second progress on detection), then complete when the counter has
reached a known total.  Returns the new state, the emitted events, and the
loop end, `none` meaning the loop continues with the next iteration. -/
def advancePage (s : ReadState) (e : IterEnv) : ReadState × List EngineEvent × Option RunEnd :=
  let s1 : ReadState := { s with currentPage := s.currentPage + 1 }
  let evs1 : List EngineEvent :=
    [.progress (mkProgress s1.currentPage s1.totalPages (elapsedAt s1 e.now))]
  let s2evs2 : ReadState × List EngineEvent :=
    if jsTruthyNat s1.totalPages then (s1, [])
    else
      match e.probe with
      | some n =>
          if n != 0 && some n != s1.totalPages then
            ({ s1 with totalPages := some n },
             [.log .info "Total de páginas detectado",
              .progress (mkProgress s1.currentPage (some n) (elapsedAt s1 e.now))])
          else (s1, [])
      | none => (s1, [])
  let s2 := s2evs2.1
  if jsTruthyNat s2.totalPages && decide (s2.totalPages.getD 0 ≤ s2.currentPage) then
    (s2, evs1 ++ s2evs2.2 ++
      [.log .success "Todas as páginas foram lidas!", emitCompletedEvent s2 e.now,
       .stateChange .completed],
     some .completedEnd)
  else (s2, evs1 ++ s2evs2.2, none)

/-- One iteration of the loop body (lines 689-739), after the stop flag was
observed to be clear: the primary control, when present and disabled, ends
the book; when present and enabled it is clicked.  When absent, the first
alternative-selector control is clicked — without any disabled check — and
only if no alternative matches either is the book ended. -/
def readIter (s : ReadState) (e : IterEnv) : ReadState × List EngineEvent × Option RunEnd :=
  match e.primary with
  | .absent =>
      match e.alt with
      | some _ => advancePage s e
      | none => (s, endOfBookEvents s e.now, some .completedEnd)
  | .present true => (s, endOfBookEvents s e.now, some .completedEnd)
  | .present false => advancePage s e

/-- Emissions of the post-loop stop path (lines 770-773). -/
def stopEvents : List EngineEvent :=
  [.log .warning "Automação interrompida pelo usuário", .stateChange .idle]

/-- The `while (!this.shouldStop)` loop (lines 682-773), driven by one
`IterEnv` per iteration (an empty environment list models a loop that is
still running).  A set stop flag ends the run on the stop path; otherwise the
iteration body runs and either breaks the loop or continues. -/
def readLoop : ReadState → List IterEnv → ReadState × List EngineEvent × Option RunEnd
  | s, [] => (s, [], none)
  | s, e :: es =>
      if e.stopSignal then (s, stopEvents, some .stoppedEnd)
      else
        match readIter s e with
        | (s1, evs, some k) => (s1, evs, some k)
        | (s1, evs, none) =>
            let r := readLoop s1 es
            (r.1, evs ++ r.2.1, r.2.2)

/-- `readPages` (lines 662-776): enter the `reading` state, overwrite the
total with a fresh probe, emit the initial progress, then run the loop.
(The purely informational prelude logs of lines 672-679 are condensed into
one entry.) -/
def readPagesModel (s0 : ReadState) (initProbe : Option ℕ) (initNow : Int)
    (envs : List IterEnv) : ReadState × List EngineEvent × Option RunEnd :=
  let s1 : ReadState := { s0 with totalPages := initProbe }
  let preEvents : List EngineEvent :=
    [.stateChange .reading, .log .info "Iniciando leitura automática...",
     .progress (mkProgress s1.currentPage s1.totalPages (elapsedAt s1 initNow))]
  let r := readLoop s1 envs
  (r.1, preEvents ++ r.2.1, r.2.2)

/-- Predicate on events: a `completed` event whose queue-id payload satisfies
`f`. -/
def completedWith (f : Option String → Bool) : EngineEvent → Bool
  | .completedEvent q _ _ _ => f q
  | _ => false

/-- Number of `completed` events in a trace. -/
def completedCount (evs : List EngineEvent) : ℕ :=
  evs.countP (completedWith fun _ => true)

/-! ### Telemetry bridge and store (src/server/storage.ts lines 47-247 and
264-384) -/

/-- The queue rows visible to `markBookCompleted`, by id. -/
structure QueueStore where
  ids : List String
  deriving DecidableEq, Repr

/-- The `completed` handler of the bridge (storage.ts lines 324-333) calls
`storage.markBookCompleted` exactly when the payload carries a queue id;
`markBookCompleted` (lines 138-160) performs one status-marking update and
one `addToHistory` insert when the queue row exists, and nothing otherwise.
An event is counted when it triggers that single update+insert pair. -/
def handledId (store : QueueStore) : Option String → Bool
  | some id => decide (id ∈ store.ids)
  | none => false

/-- Events of a trace that cause the bridge to mark the queue row and append
a history entry. -/
def completedHandled (store : QueueStore) : EngineEvent → Bool :=
  completedWith (handledId store)

/-- History rows inserted by the bridge over a trace of engine events. -/
def historyEntriesAdded (store : QueueStore) (evs : List EngineEvent) : ℕ :=
  evs.countP (completedHandled store)

/-- Queue-status updates performed by the bridge over a trace. -/
def statusMarks (store : QueueStore) (evs : List EngineEvent) : ℕ :=
  evs.countP (completedHandled store)

/-! ### start() and cleanup (src/server/automation.ts lines 85-161, 802-812) -/

/-- Outcome of one phase of the `start` body. -/
inductive PhaseResult
  | ok
  | err (msg : String)
  deriving DecidableEq, Repr

/-- The external outcomes driving one `start` call: whether the browser
launch, the login flow, and `openBook` throw, and whether the stop flag is
found set at the two checkpoints in between. -/
structure StartEnv where
  launch : PhaseResult
  login : PhaseResult
  stopAfterLogin : Bool
  openBook : PhaseResult
  stopAfterOpen : Bool
  deriving DecidableEq, Repr

/-- The try-block of `start` (lines 95-153): launch, login, stop-check,
open book, stop-check, then `readPages` (whose page-turn errors are caught
inside its own loop and never escape). -/
def startBody (e : StartEnv) : Except String Unit :=
  match e.launch with
  | .err m => .error m
  | .ok =>
      match e.login with
      | .err m => .error m
      | .ok =>
          if e.stopAfterLogin then .ok () else
          match e.openBook with
          | .err m => .error m
          | .ok => .ok ()

/-- What `start` guarantees on exit: the catch/finally of lines 154-160. -/
structure StartResult where
  events : List EngineEvent
  cleanedUp : Bool
  deriving DecidableEq, Repr

/-- `start` (lines 85-161): any exception from the body is caught and
surfaced as an `error` event plus an error log entry; `cleanup()` (lines
802-812, closing the browser) runs in the `finally` on every path. -/
def startRun (e : StartEnv) : StartResult :=
  match startBody e with
  | .error msg => { events := [.errorEvent msg, .log .error ("Erro: " ++ msg)], cleanedUp := true }
  | .ok _ => { events := [], cleanedUp := true }

/-! ### stop() and the channel-close handler
(src/server/automation.ts lines 796-800, src/server/storage.ts lines 373-379) -/

/-- The flags of one engine relevant to cancellation, plus whether its
browser process is still open. -/
structure EngineFlags where
  shouldStop : Bool
  isPaused : Bool
  browserOpen : Bool
  deriving DecidableEq, Repr

/-- `stop()` (automation.ts lines 796-800): sets the stop flag, clears the
pause flag, logs a warning — and returns.  It does not close the browser;
teardown happens later, in the `finally` of `start`. -/
def stopEngine (e : EngineFlags) : EngineFlags :=
  { e with shouldStop := true, isPaused := false }

/-- The `ws.on("close")` handler (storage.ts lines 373-379): look the session
up, await `stop()`, then delete the registry slot.  Returns the registry and
the engine flags as they stand when the handler finishes. -/
def onChannelClose (registry : List String) (sessionId : String) (e : EngineFlags) :
    List String × EngineFlags :=
  if sessionId ∈ registry then (registry.erase sessionId, stopEngine e)
  else (registry, e)

/-! ### Catalog scrape (src/unnamed/part_000, `BookBrowserService.scrapeBooks`,
lines 305-444) -/

/-- Substring test on code-point lists (`String.prototype.includes`). -/
def startsWithSeq : List ℕ → List ℕ → Bool
  | [], _ => true
  | _ :: _, [] => false
  | p :: ps, x :: xs => p == x && startsWithSeq ps xs

/-- Whether `pat` occurs contiguously inside `l`. -/
def containsSeq (pat : List ℕ) : List ℕ → Bool
  | [] => startsWithSeq pat []
  | x :: xs => startsWithSeq pat (x :: xs) || containsSeq pat xs

/-- Collapse every whitespace run into a single hyphen
(`replace(/\s+/g, "-")`); the flag records whether the previous character
belonged to a whitespace run. -/
def collapseWsAux : Bool → List ℕ → List ℕ
  | _, [] => []
  | prevWs, c :: cs =>
      if isWsN c then
        if prevWs then collapseWsAux true cs else 45 :: collapseWsAux true cs
      else c :: collapseWsAux false cs

/-- `replace(/\s+/g, "-")`. -/
def collapseWs (l : List ℕ) : List ℕ := collapseWsAux false l

/-- The derived-slug fallback
`title.toLowerCase().replace(/\s+/g, "-").replace(/[^a-z0-9-]/g, "")`. -/
def normSlug (title : List ℕ) : List ℕ :=
  (collapseWs (title.map toLowerN)).filter
    (fun c => isLowerN c || isDigitN c || c == 45)

/-- The data the card-scanning `evaluate` call returns for one candidate
element (lines 351-372): the cover URL, the title text, the slug extracted
from the link path (already the result of the `/(?:livro|book|reader)\/…/`
match or of the path-segment fallback), and the raw href. -/
structure CardData where
  coverUrl : List ℕ
  title : List ℕ
  slug : List ℕ
  href : List ℕ
  deriving DecidableEq, Repr

/-- One scraped book (shared/schema.ts `AvailableBook`; the synthetic
timestamped `id` field is omitted from the model). -/
structure Book where
  title : List ℕ
  coverUrl : List ℕ
  slug : List ℕ
  category : List ℕ
  deriving DecidableEq, Repr

/-- One scraped category (shared/schema.ts `BookCategory`). -/
structure Category where
  name : List ℕ
  books : List Book
  deriving DecidableEq, Repr

/-- The per-card filter of lines 374-381: keep a card whose title length is
in (2, 200), with the slug falling back to the normalized title when the
extracted slug is empty. -/
def cardBook (categoryName : List ℕ) (c : CardData) : Option Book :=
  if 2 < c.title.length ∧ c.title.length < 200 then
    some { title := c.title, coverUrl := c.coverUrl,
           slug := if c.slug.isEmpty then normSlug c.title else c.slug,
           category := categoryName }
  else none

/-- The books collected for one accepted category heading (lines 345-386). -/
def collectBooks (categoryName : List ℕ) (cards : List CardData) : List Book :=
  cards.filterMap (cardBook categoryName)

/-- The heading vocabulary check of line 339: the text must contain one of
"Leitura", "Ano", "Bimestre", "Sugerida". -/
def vocabOk (name : List ℕ) : Bool :=
  containsSeq (strN "Leitura") name || containsSeq (strN "Ano") name ||
  containsSeq (strN "Bimestre") name || containsSeq (strN "Sugerida") name

/-- The heading filter of lines 335-340: nonempty, length within [5, 100],
not already processed, and matching the vocabulary. -/
def headingOk (seen : List (List ℕ)) (name : List ℕ) : Bool :=
  !name.isEmpty && decide (5 ≤ name.length) && decide (name.length ≤ 100) &&
  !seen.contains name && vocabOk name

/-- The heading loop of lines 332-394: accepted headings are recorded as
processed, and a category is pushed — capped at 20 books by
`books.slice(0, 20)` — whenever at least one book was collected. -/
def scrapeCats : List (List ℕ) → List (List ℕ) → List CardData → List Category
  | [], _, _ => []
  | h :: hs, seen, cards =>
      if headingOk seen h then
        let books := collectBooks h cards
        if books.isEmpty then scrapeCats hs (h :: seen) cards
        else { name := h, books := books.take 20 } :: scrapeCats hs (h :: seen) cards
      else scrapeCats hs seen cards

/-- The data extracted for one image in the zero-category fallback scan
(lines 399-413): cover URL, title, and the result of the link-pattern match
on the enclosing anchor (the regex match is abstracted as an input). -/
structure ImgData where
  coverUrl : List ℕ
  title : List ℕ
  matchedSlug : Option (List ℕ)
  deriving DecidableEq, Repr

/-- The per-image filter of lines 415-429: keep an image with nonempty title
and cover, the slug falling back to the normalized title. -/
def imgBook (i : ImgData) : Option Book :=
  if !i.title.isEmpty && !i.coverUrl.isEmpty then
    some { title := i.title, coverUrl := i.coverUrl,
           slug := match i.matchedSlug with
                   | some s => if s.isEmpty then normSlug i.title else s
                   | none => normSlug i.title,
           category := strN "Livros Disponíveis" }
  else none

/-- `scrapeBooks` (lines 305-444): the heading-driven categories, or — when
none were found — a single synthetic category capped at 50 books by
`allBooks.slice(0, 50)`. -/
def scrapeBooks (headings : List (List ℕ)) (cards : List CardData)
    (imgs : List ImgData) : List Category :=
  let cats := scrapeCats headings [] cards
  if cats.isEmpty then
    let allBooks := imgs.filterMap imgBook
    if allBooks.isEmpty then []
    else [{ name := strN "Livros Disponíveis", books := allBooks.take 50 }]
  else cats

/-! ## Theorems -/

/-- C2: elapsed time equals `(now - startTime - accumulatedPausedTime)`
(in milliseconds, reported in seconds), so a completed pause interval never
counts toward the reported elapsed time: for any start / pause / resume /
query instants, the run started at `t0` that pauses at `tp` and resumes at
`tr` reports, at `tq`, exactly `(tq - t0 - (tr - tp)) / 1000` seconds, the
pause duration being fully accumulated into `pausedTime`.  (No progress is
emitted while paused — the loop idles in its pause wait — so the scenario of
the claim follows: 100s elapsed, 50s pause, 10s more run reports 110s.) -/
theorem elapsed_excludes_pauses (t0 tp tr tq : Int) (h : t0 ≠ 0) :
    getElapsedTime (resumeRun (pauseRun (startTiming t0) tp) tr) tq
      = ((tq - t0 - (tr - tp) : Int) : ℚ) / 1000 ∧
    (resumeRun (pauseRun (startTiming t0) tp) tr).pausedTime = tr - tp := by
  constructor
  · simp only [startTiming, pauseRun, resumeRun, getElapsedTime]
    norm_num [h]
  · simp [startTiming, pauseRun, resumeRun]

/-- C2 witness: start at 1000ms, pause at 101000ms (100s elapsed), resume at
151000ms (50s pause), query at 161000ms (10s later): 110 seconds, not 160. -/
theorem elapsed_excludes_pauses_witness :
    getElapsedTime (resumeRun (pauseRun (startTiming 1000) 101000) 151000) 161000 = 110 ∧
    (110 : ℚ) ≠ 160 := by
  refine ⟨?_, by norm_num⟩
  rw [(elapsed_excludes_pauses 1000 101000 151000 161000 (by norm_num)).1]
  norm_num

/-- C3 counterexample: the claim says that when `totalPages` is unknown the
percentage is "the last externally supplied value"; in the source it is the
constant 0.  A run whose total (25% was previously reported from
`currentPage=30, totalPages=120`) stops being detectable emits a snapshot
with percentage 0, not the previously supplied 25. -/
theorem percentage_resets_when_total_unknown :
    (mkProgress 30 (some 120) 300).percentage = 25 ∧
    (mkProgress 30 none 310).percentage = 0 ∧ (0 : ℚ) ≠ 25 := by
  refine ⟨?_, ?_, by norm_num⟩
  · simp [mkProgress, jsTruthyNat]
    norm_num
  · simp [mkProgress, jsTruthyNat]

/-- C3 amended: when a positive total is known, the snapshot percentage is
`currentPage/totalPages*100` and — once `currentPage > 0` — the ETA is
`(elapsed/currentPage)*(totalPages-currentPage)`; when the total is unknown
the percentage is 0 (not a retained value) and the ETA is absent. -/
theorem progress_snapshot_formula (cp T : ℕ) (el : ℚ) (hT : 0 < T) :
    (mkProgress cp (some T) el).percentage = (cp : ℚ) / (T : ℚ) * 100 ∧
    (0 < cp → (mkProgress cp (some T) el).estimatedTimeRemaining
        = some (el / (cp : ℚ) * ((T : ℚ) - (cp : ℚ)))) ∧
    (mkProgress cp none el).percentage = 0 ∧
    (mkProgress cp none el).estimatedTimeRemaining = none := by
  have hTne : T ≠ 0 := hT.ne'
  refine ⟨?_, ?_, ?_, ?_⟩
  · simp [mkProgress, jsTruthyNat, hTne]
  · intro hcp
    have hpos : 0 < (cp : ℚ) / (T : ℚ) * 100 := by
      have h1 : 0 < (cp : ℚ) := by exact_mod_cast hcp
      have h2 : 0 < (T : ℚ) := by exact_mod_cast hT
      positivity
    simp [mkProgress, jsTruthyNat, hTne, hcp.ne', hpos]
  · simp [mkProgress, jsTruthyNat]
  · simp [mkProgress, jsTruthyNat]

/-- C3 witness: `currentPage=30, totalPages=120, elapsedSeconds=300` yields
percentage 25.0 and estimated remaining seconds 900. -/
theorem progress_snapshot_formula_witness :
    (mkProgress 30 (some 120) 300).percentage = 25 ∧
    (mkProgress 30 (some 120) 300).estimatedTimeRemaining = some 900 := by
  have h := progress_snapshot_formula 30 120 300 (by norm_num)
  refine ⟨?_, ?_⟩
  · rw [h.1]; norm_num
  · rw [h.2.1 (by norm_num)]; norm_num

/-- C5: every exception escaping the body of `start` — including those raised
at launch, login or book-opening, before the reading state is reached — is
caught and surfaced as an `error` event plus a matching error log entry, and
the browser cleanup of the `finally` block runs on every path, exceptional or
not. -/
theorem fatal_error_handling (e : StartEnv) :
    (startRun e).cleanedUp = true ∧
    ∀ msg, startBody e = .error msg →
      EngineEvent.errorEvent msg ∈ (startRun e).events ∧
      EngineEvent.log .error ("Erro: " ++ msg) ∈ (startRun e).events := by
  constructor
  · unfold startRun
    split <;> rfl
  · intro msg h
    simp [startRun, h]

/-- C5 witness: a login failure is surfaced as an error event and an error
log entry, with cleanup run. -/
theorem fatal_error_handling_witness :
    (startRun ⟨.ok, .err "Falha no login", false, .ok, false⟩).cleanedUp = true ∧
    EngineEvent.errorEvent "Falha no login" ∈
      (startRun ⟨.ok, .err "Falha no login", false, .ok, false⟩).events ∧
    EngineEvent.log .error ("Erro: " ++ "Falha no login") ∈
      (startRun ⟨.ok, .err "Falha no login", false, .ok, false⟩).events := by
  refine ⟨(fatal_error_handling _).1, ?_, ?_⟩
  · exact ((fatal_error_handling ⟨.ok, .err "Falha no login", false, .ok, false⟩).2
      "Falha no login" rfl).1
  · exact ((fatal_error_handling ⟨.ok, .err "Falha no login", false, .ok, false⟩).2
      "Falha no login" rfl).2

/-- C7 counterexample: the claim says an `intervalSeconds` outside `[60,300]`
is clamped into the interval; the zod schema `min(60).max(300)` instead
rejects the whole start command (`safeParse` failure, the bridge answers
with an error and never starts the engine).  Interval 30 yields a parse
failure, not a configuration with interval 60, while the same input with
interval 60 parses. -/
theorem interval_not_clamped :
    parseAutomationConfig ⟨strN "123sp", strN "pw", strN "slug", some 30, none⟩ = none ∧
    parseAutomationConfig ⟨strN "123sp", strN "pw", strN "slug", some 60, none⟩ ≠ none := by
  decide

/-- C7 amended: a start command whose interval lies outside `[60,300]` is
rejected (not clamped); every accepted configuration has its interval within
`[60,300]`, an identifier matching digits-then-two-letters, and a nonempty
secret.  A missing interval defaults to 60. -/
theorem config_validation (i : RawConfig) :
    (∀ c, parseAutomationConfig i = some c →
      (60 ≤ c.interval ∧ c.interval ≤ 300) ∧ raFormatOk c.ra = true ∧ c.password ≠ []) ∧
    (∀ v, i.interval = some v → v < 60 ∨ 300 < v → parseAutomationConfig i = none) := by
  constructor
  · intro c hc
    unfold parseAutomationConfig at hc
    by_cases hcond : (raFormatOk i.ra && !i.password.isEmpty && !i.bookSlug.isEmpty) = true
    · rw [if_pos hcond] at hc
      have hra : raFormatOk i.ra = true := by
        simp only [Bool.and_eq_true] at hcond
        exact hcond.1.1
      have hpw : i.password ≠ [] := by
        simp only [Bool.and_eq_true, Bool.not_eq_true', List.isEmpty_eq_false] at hcond
        exact hcond.1.2
      cases hi : i.interval with
      | none =>
          simp only [hi] at hc
          injection hc with h
          subst h
          exact ⟨⟨by norm_num, by norm_num⟩, hra, hpw⟩
      | some v =>
          simp only [hi] at hc
          by_cases hb : 60 ≤ v ∧ v ≤ 300
          · rw [if_pos hb] at hc
            injection hc with h
            subst h
            exact ⟨hb, hra, hpw⟩
          · rw [if_neg hb] at hc
            cases hc
    · rw [if_neg hcond] at hc
      cases hc
  · intro v hv hout
    unfold parseAutomationConfig
    rw [hv]
    by_cases hcond : (raFormatOk i.ra && !i.password.isEmpty && !i.bookSlug.isEmpty) = true
    · rw [if_pos hcond]
      have hnot : ¬(60 ≤ v ∧ v ≤ 300) := by
        rcases hout with h | h
        · exact fun hx => absurd hx.1 (by linarith)
        · exact fun hx => absurd hx.2 (by linarith)
      simp [hnot]
    · rw [if_neg hcond]

/-- C7 witness: interval 120 with a well-formed identifier and nonempty
secret is accepted with its fields validated, and interval 30 is rejected. -/
theorem config_validation_witness :
    ((60 ≤ (⟨strN "123sp", strN "pw", strN "slug", (120 : ℚ), none⟩ : AutomationConfig).interval ∧
        (⟨strN "123sp", strN "pw", strN "slug", (120 : ℚ), none⟩ : AutomationConfig).interval ≤ 300) ∧
      raFormatOk (⟨strN "123sp", strN "pw", strN "slug", (120 : ℚ), none⟩ : AutomationConfig).ra = true ∧
      (⟨strN "123sp", strN "pw", strN "slug", (120 : ℚ), none⟩ : AutomationConfig).password ≠ []) ∧
    parseAutomationConfig ⟨strN "123sp", strN "pw", strN "slug", some 30, none⟩ = none := by
  constructor
  · exact (config_validation ⟨strN "123sp", strN "pw", strN "slug", some 120, none⟩).1
      ⟨strN "123sp", strN "pw", strN "slug", 120, none⟩ (by decide)
  · exact (config_validation ⟨strN "123sp", strN "pw", strN "slug", some 30, none⟩).2
      30 rfl (Or.inl (by norm_num))

/-- C8 counterexample: the claim says channel-close awaits browser teardown
before releasing the registry slot.  `stop()` only sets the stop flag (and
clears the pause flag); with the browser open, the close handler deletes the
registry slot while the browser is still open — teardown happens later, in
the final cleanup of the run. -/
theorem close_releases_slot_before_teardown :
    (onChannelClose ["s1"] "s1" ⟨false, false, true⟩).1 = [] ∧
    (onChannelClose ["s1"] "s1" ⟨false, false, true⟩).2.browserOpen = true ∧
    (onChannelClose ["s1"] "s1" ⟨false, false, true⟩).2.shouldStop = true := by
  decide

/-- C8 amended: on channel-close the handler awaits `stop()` — which sets the
engine stop flag and clears the pause flag but performs no teardown — and
then releases the registry slot; the browser-open status is unchanged at
release time (teardown is deferred to the guaranteed final cleanup of the
run). -/
theorem close_handler_behavior (reg : List String) (sid : String) (e : EngineFlags)
    (h : sid ∈ reg) :
    (onChannelClose reg sid e).1 = reg.erase sid ∧
    (onChannelClose reg sid e).2.shouldStop = true ∧
    (onChannelClose reg sid e).2.isPaused = false ∧
    (onChannelClose reg sid e).2.browserOpen = e.browserOpen := by
  simp [onChannelClose, h, stopEngine]

/-- C8 witness: concrete session close. -/
theorem close_handler_behavior_witness :
    (onChannelClose ["s1"] "s1" ⟨false, true, true⟩).1 = List.erase ["s1"] "s1" ∧
    (onChannelClose ["s1"] "s1" ⟨false, true, true⟩).2.shouldStop = true ∧
    (onChannelClose ["s1"] "s1" ⟨false, true, true⟩).2.isPaused = false ∧
    (onChannelClose ["s1"] "s1" ⟨false, true, true⟩).2.browserOpen
      = (⟨false, true, true⟩ : EngineFlags).browserOpen :=
  close_handler_behavior ["s1"] "s1" ⟨false, true, true⟩ (by decide)

/-- C1 counterexample: a next-page control resolved by an alternative
selector strategy but disabled does NOT end the book.  The loop clicks it
without any disabled check: no `completed` event is emitted, no `completed`
state is entered, and the page counter is incremented from 5 to 6. -/
theorem disabled_alt_control_not_end_of_book :
    (readIter ⟨5, none, 1000, 0, none⟩
        ⟨false, ButtonRes.absent, some true, none, 61000⟩).2.2 = none ∧
    completedCount (readIter ⟨5, none, 1000, 0, none⟩
        ⟨false, ButtonRes.absent, some true, none, 61000⟩).2.1 = 0 ∧
    EngineEvent.stateChange AutomationState.completed ∉
      (readIter ⟨5, none, 1000, 0, none⟩
        ⟨false, ButtonRes.absent, some true, none, 61000⟩).2.1 ∧
    (readIter ⟨5, none, 1000, 0, none⟩
        ⟨false, ButtonRes.absent, some true, none, 61000⟩).1.currentPage = 6 := by
  decide

/-- C1 amended: when the primary next-page control resolves but is disabled,
or when no next-page control resolves by any strategy (primary or
alternative), the reading loop treats this as end of book: it breaks out of
the loop, enters the `completed` state, and emits exactly one `completed`
event whose `pagesRead` equals the `currentPage` counter at that moment.
(A *disabled alternative-strategy control* is instead clicked, see the
counterexample.) -/
theorem end_of_book_detection (s : ReadState) (e : IterEnv) (rest : List IterEnv)
    (hstop : e.stopSignal = false)
    (hend : e.primary = ButtonRes.present true ∨
            (e.primary = ButtonRes.absent ∧ e.alt = none)) :
    readLoop s (e :: rest) = (s, endOfBookEvents s e.now, some RunEnd.completedEnd) ∧
    completedCount (endOfBookEvents s e.now) = 1 ∧
    EngineEvent.completedEvent (jsTruthyStr s.bookQueueId) s.currentPage
        (completedTotal s.totalPages s.currentPage) (elapsedAt s e.now)
      ∈ endOfBookEvents s e.now ∧
    EngineEvent.stateChange AutomationState.completed ∈ endOfBookEvents s e.now := by
  have hiter : readIter s e = (s, endOfBookEvents s e.now, some RunEnd.completedEnd) := by
    rcases hend with h | ⟨h1, h2⟩
    · simp [readIter, h]
    · simp [readIter, h1, h2]
  refine ⟨?_, ?_, ?_, ?_⟩
  · simp [readLoop, hstop, hiter]
  · simp [completedCount, endOfBookEvents, emitCompletedEvent, completedWith,
      List.countP_cons, List.countP_nil]
  · simp [endOfBookEvents, emitCompletedEvent]
  · simp [endOfBookEvents]

/-- C1 witness: a run in the reading state with `currentPage = 7` whose
primary next-page control resolves disabled completes with `pagesRead = 7`. -/
theorem end_of_book_detection_witness :
    readLoop ⟨7, some 10, 1000, 0, some "q1"⟩
        [⟨false, ButtonRes.present true, none, none, 61000⟩]
      = (⟨7, some 10, 1000, 0, some "q1"⟩,
         endOfBookEvents ⟨7, some 10, 1000, 0, some "q1"⟩ 61000,
         some RunEnd.completedEnd) ∧
    completedCount (endOfBookEvents ⟨7, some 10, 1000, 0, some "q1"⟩ 61000) = 1 ∧
    EngineEvent.completedEvent (jsTruthyStr (some "q1")) 7 (completedTotal (some 10) 7)
        (elapsedAt ⟨7, some 10, 1000, 0, some "q1"⟩ 61000)
      ∈ endOfBookEvents ⟨7, some 10, 1000, 0, some "q1"⟩ 61000 ∧
    EngineEvent.stateChange AutomationState.completed
      ∈ endOfBookEvents ⟨7, some 10, 1000, 0, some "q1"⟩ 61000 :=
  end_of_book_detection ⟨7, some 10, 1000, 0, some "q1"⟩
    ⟨false, ButtonRes.present true, none, none, 61000⟩ [] rfl (Or.inl rfl)

/-- When no total is known and the re-probe finds none, a page turn just
increments the counter and emits one progress snapshot. -/
theorem advancePage_noTotal (s : ReadState) (e : IterEnv)
    (hs : s.totalPages = none) (hp : e.probe = none) :
    advancePage s e =
      ({ s with currentPage := s.currentPage + 1 },
       [.progress (mkProgress (s.currentPage + 1) none
          (elapsedAt { s with currentPage := s.currentPage + 1 } e.now))], none) := by
  simp [advancePage, hs, hp, jsTruthyNat]


/-- C9: in a run during which no total page count is ever detected (the
internal total starts as `null` and every re-probe fails), every `completed`
event emitted by the reading loop carries `totalPages = pagesRead` — the
`totalPages || currentPage` fallback of `emitCompleted` — hence a nonzero
total whenever at least one page was turned. -/
theorem completed_total_fallback :
    ∀ (envs : List IterEnv) (s : ReadState),
      s.totalPages = none → (∀ e ∈ envs, e.probe = none) →
      ∀ q pr tot ts,
        EngineEvent.completedEvent q pr tot ts ∈ (readLoop s envs).2.1 →
        tot = pr ∧ (1 ≤ pr → tot ≠ 0) := by
  intro envs
  induction envs with
  | nil =>
      intro s hs hp q pr tot ts hmem
      simp [readLoop] at hmem
  | cons e es ih =>
      intro s hs hp q pr tot ts hmem
      have hpe := fun hfalse : e.stopSignal = false =>
        advancePage_noTotal s e hs (hp e (List.mem_cons_self e es))
      by_cases hstop : e.stopSignal = true
      · simp [readLoop, hstop, stopEvents] at hmem
      · have hstopf : e.stopSignal = false := by
          simpa using hstop
        have hadvmem : EngineEvent.completedEvent q pr tot ts
              ∈ (readLoop { s with currentPage := s.currentPage + 1 } es).2.1 →
            tot = pr ∧ (1 ≤ pr → tot ≠ 0) :=
          fun h2 => ih { s with currentPage := s.currentPage + 1 } hs
            (fun x hx => hp x (List.mem_cons_of_mem e hx)) q pr tot ts h2
        cases hprim : e.primary with
        | absent =>
            cases halt : e.alt with
            | none =>
                simp [readLoop, hstopf, readIter, hprim, halt, endOfBookEvents,
                  emitCompletedEvent, completedTotal, jsTruthyNat, hs] at hmem
                obtain ⟨hq, hpr, htot, hts⟩ := hmem
                refine ⟨htot.trans hpr.symm, ?_⟩
                intro h1
                omega
            | some d =>
                simp [readLoop, hstopf, readIter, hprim, halt,
                  hpe hstopf] at hmem
                exact hadvmem hmem
        | present d =>
            cases d with
            | true =>
                simp [readLoop, hstopf, readIter, hprim, endOfBookEvents,
                  emitCompletedEvent, completedTotal, jsTruthyNat, hs] at hmem
                obtain ⟨hq, hpr, htot, hts⟩ := hmem
                refine ⟨htot.trans hpr.symm, ?_⟩
                intro h1
                omega
            | false =>
                simp [readLoop, hstopf, readIter, hprim, hpe hstopf] at hmem
                exact hadvmem hmem

/-- C9 witness: a run with no detectable total that turns one page and then
finds the primary control disabled emits a completed event with
`totalPages = pagesRead = 1` (nonzero). -/
theorem completed_total_fallback_witness :
    EngineEvent.completedEvent none 1 1 (elapsedAt ⟨1, none, 1000, 0, none⟩ 121000) ∈
      (readLoop ⟨0, none, 1000, 0, none⟩
        [⟨false, ButtonRes.present false, none, none, 61000⟩,
         ⟨false, ButtonRes.present true, none, none, 121000⟩]).2.1 ∧
    (1 : ℕ) = 1 ∧ (1 : ℕ) ≠ 0 := by
  have h1 := advancePage_noTotal ⟨0, none, 1000, 0, none⟩
    ⟨false, ButtonRes.present false, none, none, 61000⟩ rfl rfl
  have hmem : EngineEvent.completedEvent none 1 1 (elapsedAt ⟨1, none, 1000, 0, none⟩ 121000) ∈
      (readLoop ⟨0, none, 1000, 0, none⟩
        [⟨false, ButtonRes.present false, none, none, 61000⟩,
         ⟨false, ButtonRes.present true, none, none, 121000⟩]).2.1 := by
    simp [readLoop, readIter, h1, endOfBookEvents, emitCompletedEvent, completedTotal,
      jsTruthyNat, jsTruthyStr]
  have h := completed_total_fallback
    [⟨false, ButtonRes.present false, none, none, 61000⟩,
     ⟨false, ButtonRes.present true, none, none, 121000⟩]
    ⟨0, none, 1000, 0, none⟩ rfl (by decide) none 1 1
    (elapsedAt ⟨1, none, 1000, 0, none⟩ 121000) hmem
  exact ⟨hmem, h.1, h.2 (by norm_num)⟩

/-- Every heading-driven category is capped at 20 books by `slice(0, 20)`. -/
theorem scrapeCats_books_le (hs : List (List ℕ)) :
    ∀ (seen : List (List ℕ)) (cards : List CardData) (c : Category),
      c ∈ scrapeCats hs seen cards → c.books.length ≤ 20 := by
  induction hs with
  | nil =>
      intro seen cards c hc
      simp [scrapeCats] at hc
  | cons h hs ih =>
      intro seen cards c hc
      simp only [scrapeCats] at hc
      split at hc
      · split at hc
        · exact ih _ _ _ hc
        · rcases List.mem_cons.mp hc with rfl | h2
          · simp [List.length_take]
          · exact ih _ _ _ h2
      · exact ih _ _ _ hc

/-- C10: every category matched from the heading vocabulary contains at most
20 books (`books.slice(0, 20)`), and every category of the final scrape
result — including the synthetic fallback category produced when no heading
matched — contains at most 50 books (`allBooks.slice(0, 50)`). -/
theorem scrape_category_caps (headings seen : List (List ℕ)) (cards : List CardData)
    (imgs : List ImgData) :
    (∀ c ∈ scrapeCats headings seen cards, c.books.length ≤ 20) ∧
    (∀ c ∈ scrapeBooks headings cards imgs, c.books.length ≤ 50) := by
  constructor
  · intro c hc
    exact scrapeCats_books_le headings seen cards c hc
  · intro c hc
    simp only [scrapeBooks] at hc
    split at hc
    · split at hc
      · simp at hc
      · rcases List.mem_singleton.mp hc with rfl
        simp [List.length_take]
    · exact le_trans (scrapeCats_books_le headings [] cards c hc) (by norm_num)

/-- C10 witness: one vocabulary-matching heading with one valid card yields a
category of one book, within both caps. -/
theorem scrape_category_caps_witness :
    (⟨strN "Leitura Sugerida",
      [⟨strN "Dom Casmurro", strN "capa", strN "dom-casmurro", strN "Leitura Sugerida"⟩]⟩ :
        Category) ∈
      scrapeCats [strN "Leitura Sugerida"] []
        [⟨strN "capa", strN "Dom Casmurro", strN "dom-casmurro", strN "hx"⟩] ∧
    (⟨strN "Leitura Sugerida",
      [⟨strN "Dom Casmurro", strN "capa", strN "dom-casmurro", strN "Leitura Sugerida"⟩]⟩ :
        Category).books.length ≤ 20 ∧
    (⟨strN "Leitura Sugerida",
      [⟨strN "Dom Casmurro", strN "capa", strN "dom-casmurro", strN "Leitura Sugerida"⟩]⟩ :
        Category) ∈
      scrapeBooks [strN "Leitura Sugerida"]
        [⟨strN "capa", strN "Dom Casmurro", strN "dom-casmurro", strN "hx"⟩] [] ∧
    (⟨strN "Leitura Sugerida",
      [⟨strN "Dom Casmurro", strN "capa", strN "dom-casmurro", strN "Leitura Sugerida"⟩]⟩ :
        Category).books.length ≤ 50 := by
  have h1 : (⟨strN "Leitura Sugerida",
      [⟨strN "Dom Casmurro", strN "capa", strN "dom-casmurro", strN "Leitura Sugerida"⟩]⟩ :
        Category) ∈
      scrapeCats [strN "Leitura Sugerida"] []
        [⟨strN "capa", strN "Dom Casmurro", strN "dom-casmurro", strN "hx"⟩] := by
    decide
  have h2 : (⟨strN "Leitura Sugerida",
      [⟨strN "Dom Casmurro", strN "capa", strN "dom-casmurro", strN "Leitura Sugerida"⟩]⟩ :
        Category) ∈
      scrapeBooks [strN "Leitura Sugerida"]
        [⟨strN "capa", strN "Dom Casmurro", strN "dom-casmurro", strN "hx"⟩] [] := by
    decide
  exact ⟨h1,
    (scrape_category_caps [strN "Leitura Sugerida"] []
      [⟨strN "capa", strN "Dom Casmurro", strN "dom-casmurro", strN "hx"⟩] []).1 _ h1,
    h2,
    (scrape_category_caps [strN "Leitura Sugerida"] []
      [⟨strN "capa", strN "Dom Casmurro", strN "dom-casmurro", strN "hx"⟩] []).2 _ h2⟩

/-- Whitespace characters are not digits. -/
theorem ws_not_digit {c : ℕ} (h : isWsN c = true) : isDigitN c = false := by
  simp only [isWsN, decide_eq_true_eq] at h
  simp only [isDigitN, decide_eq_false_iff_not]
  omega

/-- Dropping leading whitespace does not change the digits of a string. -/
theorem filter_digit_dropWhile (l : List ℕ) :
    (l.dropWhile isWsN).filter isDigitN = l.filter isDigitN := by
  induction l with
  | nil => rfl
  | cons c cs ih =>
      by_cases h : isWsN c = true
      · rw [List.dropWhile_cons, if_pos h, ih, List.filter_cons,
          if_neg (by simp [ws_not_digit h])]
      · rw [List.dropWhile_cons, if_neg h]

/-- Trimming does not change the digits of a string. -/
theorem digitsOnly_trim (l : List ℕ) : digitsOnlyN (trimN l) = digitsOnlyN l := by
  unfold trimN digitsOnlyN
  rw [List.filter_reverse, filter_digit_dropWhile, List.filter_reverse,
    List.reverse_reverse, filter_digit_dropWhile]

/-- On letters-and-digits input, lowering then stripping the lowercase
letters leaves exactly the digits. -/
theorem lower_strip_eq_digits (t : List ℕ) (h : ∀ c ∈ t, isAlnumN c = true) :
    (t.map toLowerN).filter (fun c => !isLowerN c) = t.filter isDigitN := by
  induction t with
  | nil => rfl
  | cons c cs ih =>
      have hc := h c (List.mem_cons_self c cs)
      have hrest : ∀ x ∈ cs, isAlnumN x = true := fun x hx => h x (List.mem_cons_of_mem c hx)
      simp only [List.map_cons, List.filter_cons]
      by_cases hd : isDigitN c = true
      · have h1 : toLowerN c = c := by
          simp only [isDigitN, decide_eq_true_eq] at hd
          simp only [toLowerN, isUpperN]
          rw [if_neg (by simp only [decide_eq_true_eq]; omega)]
        have h2 : isLowerN c = false := by
          simp only [isDigitN, decide_eq_true_eq] at hd
          simp only [isLowerN, decide_eq_false_iff_not]
          omega
        rw [h1, if_pos (by simp [h2]), if_pos hd, ih hrest]
      · have ha : isAlphaN c = true := by
          simp only [isAlnumN, Bool.or_eq_true] at hc
          rcases hc with h1 | h1
          · exact absurd h1 hd
          · exact h1
        by_cases hl : isLowerN c = true
        · have h1 : toLowerN c = c := by
            simp only [isLowerN, decide_eq_true_eq] at hl
            simp only [toLowerN, isUpperN]
            rw [if_neg (by simp only [decide_eq_true_eq]; omega)]
          rw [h1, if_neg (by simp [hl]), if_neg hd, ih hrest]
        · have hu : isUpperN c = true := by
            simp only [isAlphaN, Bool.or_eq_true] at ha
            rcases ha with h1 | h1
            · exact absurd h1 hl
            · exact h1
          have h1 : toLowerN c = c + 32 := by
            simp only [toLowerN, if_pos hu]
          have h2 : isLowerN (c + 32) = true := by
            simp only [isUpperN, decide_eq_true_eq] at hu
            simp only [isLowerN, decide_eq_true_eq]
            omega
          rw [h1, if_neg (by simp [h2]), if_neg hd, ih hrest]

/-- On valid input the letter-stripped lowered string is exactly the digits
of the raw string. -/
theorem numbersOnly_eq_digits (raw : List ℕ) (h : ∀ c ∈ trimN raw, isAlnumN c = true) :
    numbersOnlyOf ((trimN raw).map toLowerN) = digitsOnlyN raw := by
  unfold numbersOnlyOf
  rw [lower_strip_eq_digits (trimN raw) h]
  exact digitsOnly_trim raw

/-- C4 amended: for raw identifier strings whose trimmed content consists of
letters and digits with at least one digit, the decomposition satisfies
`body.length + 1 = digitsOnly(raw).length` and
`body ++ checkDigit = digitsOnly(raw)`; the region is exactly 2 letters for
*every* raw string (defaulting to SP when absent).  (Without the
letters-and-digits restriction both identities fail, see the
counterexample.) -/
theorem identifier_decomposition (raw : List ℕ) :
    ((∀ c ∈ trimN raw, isAlnumN c = true) → (∃ c ∈ trimN raw, isDigitN c = true) →
      (parseRA raw).ra.length + 1 = (digitsOnlyN raw).length ∧
      (parseRA raw).ra ++ (parseRA raw).digito = digitsOnlyN raw) ∧
    (parseRA raw).uf.length = 2 := by
  constructor
  · intro haln hdig
    have hno : numbersOnlyOf ((trimN raw).map toLowerN) = digitsOnlyN raw :=
      numbersOnly_eq_digits raw haln
    have hLne : numbersOnlyOf ((trimN raw).map toLowerN) ≠ [] := by
      rw [hno]
      obtain ⟨c, hcmem, hcd⟩ := hdig
      have : c ∈ digitsOnlyN raw := by
        rw [← digitsOnly_trim raw]
        exact List.mem_filter.mpr ⟨hcmem, hcd⟩
      exact List.ne_nil_of_mem this
    constructor
    · show (numbersOnlyOf ((trimN raw).map toLowerN)).dropLast.length + 1
        = (digitsOnlyN raw).length
      rw [List.length_dropLast, ← hno]
      have := List.length_pos.mpr hLne
      omega
    · show (numbersOnlyOf ((trimN raw).map toLowerN)).dropLast ++
        (numbersOnlyOf ((trimN raw).map toLowerN)).getLast?.toList = digitsOnlyN raw
      rw [List.getLast?_eq_getLast_of_ne_nil hLne]
      simp only [Option.toList_some]
      rw [List.dropLast_append_getLast hLne, hno]
  · show (ufOf ((trimN raw).map toLowerN)).length = 2
    unfold ufOf
    split
    · split
      · rfl
      · rfl
    · rfl

/-- C4 counterexample: the claim quantifies over every raw identifier string,
but a digitless string ("sp") breaks the length identity —
`body.length + 1 = 1 ≠ 0 = digitsOnly.length` — and a string with
punctuation ("12-34sp") breaks the concatenation identity, because the
source strips only letters, so the hyphen survives into the body. -/
theorem identifier_decomposition_needs_alnum :
    (parseRA (strN "sp")).ra.length + 1 ≠ (digitsOnlyN (strN "sp")).length ∧
    (parseRA (strN "12-34sp")).ra ++ (parseRA (strN "12-34sp")).digito
      ≠ digitsOnlyN (strN "12-34sp") := by
  decide

/-- C4 witness: raw `"00001152877136sp"` decomposes to body
`"0000115287713"`, check digit `"6"`, region `"SP"`, satisfying both
identities. -/
theorem identifier_decomposition_witness :
    ((parseRA (strN "00001152877136sp")).ra.length + 1
        = (digitsOnlyN (strN "00001152877136sp")).length ∧
      (parseRA (strN "00001152877136sp")).ra ++ (parseRA (strN "00001152877136sp")).digito
        = digitsOnlyN (strN "00001152877136sp")) ∧
    (parseRA (strN "00001152877136sp")).uf.length = 2 ∧
    parseRA (strN "00001152877136sp")
      = ⟨strN "0000115287713", strN "6", strN "SP"⟩ := by
  refine ⟨(identifier_decomposition (strN "00001152877136sp")).1 (by decide) ?_, 
    (identifier_decomposition (strN "00001152877136sp")).2, by decide⟩
  exact ⟨48, by decide⟩

/-- A page turn never changes the queue-entry id of the run. -/
theorem advancePage_bookQueueId (s : ReadState) (e : IterEnv) :
    (advancePage s e).1.bookQueueId = s.bookQueueId := by
  simp only [advancePage]
  repeat' split
  all_goals rfl

/-- A page-turn iteration emits exactly one `completed` event when it ends
the run as completed (carrying the run's queue id) and none otherwise. -/
theorem countP_advancePage (f : Option String → Bool) (s : ReadState) (e : IterEnv) :
    (advancePage s e).2.1.countP (completedWith f) =
      if (advancePage s e).2.2 = some RunEnd.completedEnd then
        (if f (jsTruthyStr s.bookQueueId) then 1 else 0) else 0 := by
  simp only [advancePage]
  repeat' split
  all_goals
    simp_all [completedWith, emitCompletedEvent, List.countP_append, List.countP_cons,
      List.countP_nil]

/-- A loop iteration never changes the queue-entry id of the run. -/
theorem readIter_bookQueueId (s : ReadState) (e : IterEnv) :
    (readIter s e).1.bookQueueId = s.bookQueueId := by
  unfold readIter
  cases hprim : e.primary with
  | absent =>
      cases halt : e.alt with
      | none => rfl
      | some d => exact advancePage_bookQueueId s e
  | present d =>
      cases d with
      | true => rfl
      | false => exact advancePage_bookQueueId s e

/-- One loop iteration emits exactly one `completed` event when it ends the
run as completed, and none otherwise. -/
theorem countP_readIter (f : Option String → Bool) (s : ReadState) (e : IterEnv) :
    (readIter s e).2.1.countP (completedWith f) =
      if (readIter s e).2.2 = some RunEnd.completedEnd then
        (if f (jsTruthyStr s.bookQueueId) then 1 else 0) else 0 := by
  unfold readIter
  cases hprim : e.primary with
  | absent =>
      cases halt : e.alt with
      | none =>
          simp [endOfBookEvents, emitCompletedEvent, completedWith, List.countP_cons]
      | some d => exact countP_advancePage f s e
  | present d =>
      cases d with
      | true =>
          simp [endOfBookEvents, emitCompletedEvent, completedWith, List.countP_cons]
      | false => exact countP_advancePage f s e

/-- The reading loop emits exactly one `completed` event — always carrying
the run's queue id — when it ends as completed, and none on a stop or while
still running; the queue id of the state is invariant. -/
theorem countP_readLoop (f : Option String → Bool) :
    ∀ (envs : List IterEnv) (s : ReadState),
      ((readLoop s envs).2.1.countP (completedWith f) =
        if (readLoop s envs).2.2 = some RunEnd.completedEnd then
          (if f (jsTruthyStr s.bookQueueId) then 1 else 0) else 0) ∧
      (readLoop s envs).1.bookQueueId = s.bookQueueId := by
  intro envs
  induction envs with
  | nil => intro s; simp [readLoop]
  | cons e es ih =>
      intro s
      by_cases hstop : e.stopSignal = true
      · simp [readLoop, hstop, stopEvents, completedWith, List.countP_cons]
      · have hstopf : e.stopSignal = false := by simpa using hstop
        have hci := countP_readIter f s e
        have hbi := readIter_bookQueueId s e
        rcases hri : readIter s e with ⟨s1, evs, k⟩
        rw [hri] at hci hbi
        simp only at hci hbi
        cases k with
        | some k1 =>
            refine ⟨?_, ?_⟩
            · simp only [readLoop, hstopf, Bool.false_eq_true, if_false, hri]
              exact hci
            · simp only [readLoop, hstopf, Bool.false_eq_true, if_false, hri]
              exact hbi
        | none =>
            have ihs := ih s1
            refine ⟨?_, ?_⟩
            · simp only [readLoop, hstopf, Bool.false_eq_true, if_false, hri,
                List.countP_append]
              rw [hci]
              simp only [reduceCtorEq, if_false, Nat.zero_add]
              rw [ihs.1, hbi]
            · simp only [readLoop, hstopf, Bool.false_eq_true, if_false, hri]
              rw [ihs.2, hbi]

/-- C6 counterexample: the claim promises exactly one history entry also for
force-stopped runs; in the source the stop path of `readPages` emits no
`completed` event (only a warning log and the `idle` state), so the bridge
records nothing: a force-stopped run with a known queue id yields 0 history
entries, not 1. -/
theorem stopped_run_records_no_history :
    (readPagesModel ⟨0, none, 1000, 0, some "q1"⟩ none 1000
        [⟨true, ButtonRes.absent, none, none, 2000⟩]).2.2 = some RunEnd.stoppedEnd ∧
    historyEntriesAdded ⟨["q1"]⟩
        (readPagesModel ⟨0, none, 1000, 0, some "q1"⟩ none 1000
          [⟨true, ButtonRes.absent, none, none, 2000⟩]).2.1 = 0 ∧
    (0 : ℕ) ≠ 1 := by
  refine ⟨by decide, by decide, by norm_num⟩

/-- C6 amended: for every run with a known (nonempty, existing) queue-entry
id that ends completed, exactly one history entry is recorded and the queue
entry's status is marked exactly once; a force-stopped run records no
history entry and performs no status mark (see the counterexample). -/
theorem history_marked_once_per_completed_run (store : QueueStore) (s0 : ReadState)
    (initProbe : Option ℕ) (initNow : Int) (envs : List IterEnv) (id : String)
    (hid : s0.bookQueueId = some id) (hne : id ≠ "") (hmem : id ∈ store.ids)
    (hend : (readPagesModel s0 initProbe initNow envs).2.2 = some RunEnd.completedEnd) :
    historyEntriesAdded store (readPagesModel s0 initProbe initNow envs).2.1 = 1 ∧
    statusMarks store (readPagesModel s0 initProbe initNow envs).2.1 = 1 := by
  have hloopend : (readLoop { s0 with totalPages := initProbe } envs).2.2
      = some RunEnd.completedEnd := hend
  have hc := (countP_readLoop (handledId store) envs { s0 with totalPages := initProbe }).1
  rw [hloopend, if_pos rfl] at hc
  have hqid : jsTruthyStr ({ s0 with totalPages := initProbe } : ReadState).bookQueueId
      = some id := by
    show jsTruthyStr s0.bookQueueId = some id
    rw [hid]
    simp [jsTruthyStr, hne]
  rw [hqid] at hc
  have hhandled : handledId store (some id) = true := by
    simp [handledId, hmem]
  rw [hhandled, if_pos rfl] at hc
  have htrace : historyEntriesAdded store (readPagesModel s0 initProbe initNow envs).2.1
      = 1 := by
    show ([EngineEvent.stateChange .reading,
        EngineEvent.log .info "Iniciando leitura automática...",
        EngineEvent.progress (mkProgress ({ s0 with totalPages := initProbe } : ReadState).currentPage
          ({ s0 with totalPages := initProbe } : ReadState).totalPages
          (elapsedAt { s0 with totalPages := initProbe } initNow))] ++
        (readLoop { s0 with totalPages := initProbe } envs).2.1).countP
        (completedHandled store) = 1
    rw [List.countP_append]
    have hpre : ([EngineEvent.stateChange .reading,
        EngineEvent.log .info "Iniciando leitura automática...",
        EngineEvent.progress (mkProgress ({ s0 with totalPages := initProbe } : ReadState).currentPage
          ({ s0 with totalPages := initProbe } : ReadState).totalPages
          (elapsedAt { s0 with totalPages := initProbe } initNow))]).countP
        (completedHandled store) = 0 := by
      simp [completedHandled, completedWith, List.countP_cons]
    rw [hpre]
    show 0 + (readLoop { s0 with totalPages := initProbe } envs).2.1.countP
      (completedWith (handledId store)) = 1
    rw [hc]
  exact ⟨htrace, htrace⟩

/-- C6 witness: a completing run with known queue id "q1" present in the
store records exactly one history entry and one status mark. -/
theorem history_marked_once_witness :
    historyEntriesAdded ⟨["q1"]⟩
        (readPagesModel ⟨0, none, 1000, 0, some "q1"⟩ none 1000
          [⟨false, ButtonRes.present true, none, none, 61000⟩]).2.1 = 1 ∧
    statusMarks ⟨["q1"]⟩
        (readPagesModel ⟨0, none, 1000, 0, some "q1"⟩ none 1000
          [⟨false, ButtonRes.present true, none, none, 61000⟩]).2.1 = 1 :=
  history_marked_once_per_completed_run ⟨["q1"]⟩ ⟨0, none, 1000, 0, some "q1"⟩
    none 1000 [⟨false, ButtonRes.present true, none, none, 61000⟩] "q1"
    rfl (by decide) (by decide) (by decide)
